import Mathlib

/-!
Shallow embedding of `src/p3D_acoustic.c` (a PETSc 3-D acoustic wave
propagation example).

Conventions of the embedding:
* `PetscScalar` / `double` values are modelled as exact rationals `ℚ`;
  the libm functions `sin`, `cos`, `exp` are kept abstract as function
  parameters `sinf cosf expf : ℚ → ℚ` (the only analytic fact any claim
  needs about them is `expf 0 = 1`).
* A grid node is a triple of natural-number indices `(i, j, k)`,
  mirroring the `unsigned int` loop counters; the C loop counters only
  ever take values `≥ 1` where a subtraction `i - 1` is evaluated inside
  the interior branch, so truncated `ℕ` subtraction agrees with the
  unsigned C arithmetic on every reachable evaluation.
* The per-row stencil buffers `v[7]` / `idxn[7]` together with the
  running counter `n` of `compute_A_ux` are modelled as a list of
  `(column, value)` pairs; the counter `n` becomes the list length, and
  the deferred diagonal update `v[0] += 2*hx*hy*hz` (line 631, executed
  only on the interior branch) is merged into the diagonal entry.
* `MatSetValuesStencil(..., INSERT_VALUES)` inserts each row once, so
  the assembled matrix entry `A[p,q]` is the sum of the values of row
  `p`'s buffer entries whose column index is `q` (all column indices in
  one row are pairwise distinct, so this sum has at most one summand).
-/

/-- A 3-D grid node, mirroring the loop indices `i` (x), `j` (y), `k` (z). -/
structure Node where
  i : ℕ
  j : ℕ
  k : ℕ
deriving DecidableEq

/-- The parts of the C context `ctx_t` that the assembly and RHS routines
read: grid sizes (`grid.mx/my/mz`, equal to `model.nx/ny/nz`), the model
extents and spacings stored by `main` (lines 189–196), the timestep
`time.dt`, the source node `src.isrc/jsrc/ksrc`, and the material fields
`model.c11`, `model.rho` read through `DMDAVecGetArray`. -/
structure Ctx where
  mx : ℕ
  my : ℕ
  mz : ℕ
  xmax : ℚ
  ymax : ℚ
  zmax : ℚ
  dx : ℚ
  dy : ℚ
  dz : ℚ
  dt : ℚ
  isrc : ℕ
  jsrc : ℕ
  ksrc : ℕ
  c11 : Node → ℚ
  rho : Node → ℚ

/-- Line 16: `#define PI 3.1415926535`. -/
def PI : ℚ := 3.1415926535

/-- Line 17: `#define DEGREES_TO_RADIANS PI/180.f`. -/
def DEGREES_TO_RADIANS : ℚ := PI / 180

/-- The boundary test shared by `update_b_ux` (lines 448–450) and
`compute_A_ux` (lines 549–551): any index at its axis minimum `0` or
maximum `m - 1`. -/
def isBoundaryB (c : Ctx) (p : Node) : Bool :=
  (p.i == 0) || (p.i == c.mx - 1) ||
  (p.j == 0) || (p.j == c.my - 1) ||
  (p.k == 0) || (p.k == c.mz - 1)

/-- Grid spacing `hx = 1/(mx-1)` recomputed identically in
`update_b_ux` (line 421) and `compute_A_ux` (line 521). -/
def hx (c : Ctx) : ℚ := 1 / ((c.mx : ℚ) - 1)

/-- Grid spacing `hy = 1/(my-1)` (lines 422 and 522). -/
def hy (c : Ctx) : ℚ := 1 / ((c.my : ℚ) - 1)

/-- Grid spacing `hz = 1/(mz-1)` (lines 423 and 523). -/
def hz (c : Ctx) : ℚ := 1 / ((c.mz : ℚ) - 1)

/-- Face-area over spacing ratio `hyhzdhx = hy*hz/hx` (line 525). -/
def hyhzdhx (c : Ctx) : ℚ := hy c * hz c / hx c

/-- Face-area over spacing ratio `hxhzdhy = hx*hz/hy` (line 526). -/
def hxhzdhy (c : Ctx) : ℚ := hx c * hz c / hy c

/-- Face-area over spacing ratio `hxhydhz = hx*hy/hz` (line 527). -/
def hxhydhz (c : Ctx) : ℚ := hx c * hy c / hz c

/-- The model/time/source setup performed by `main` (lines 163–214) for
node counts `nx ny nz` (defaults `25` each, overridable through the DMDA
options): extents `1000`, spacings `extent / node_count` (line 194),
constant material `c11 = 1800`, `rho = 1000` (lines 181–182),
`dt = dx / cmax` with `cmax = 1800` (line 204), source at
`(nx/2, ny/2, nz/2)` by integer division (lines 209–211). -/
def setupCtx (nx ny nz : ℕ) : Ctx :=
  { mx := nx, my := ny, mz := nz
  , xmax := 1000, ymax := 1000, zmax := 1000
  , dx := 1000 / (nx : ℚ), dy := 1000 / (ny : ℚ), dz := 1000 / (nz : ℚ)
  , dt := 1000 / (nx : ℚ) / 1800
  , isrc := nx / 2, jsrc := ny / 2, ksrc := nz / 2
  , c11 := fun _ => 1800, rho := fun _ => 1000 }

/-- Configuration-error kind postulated by the spec (§4.1/§7); the C
source has no value of this kind anywhere. -/
inductive ConfigError where
  | badNodeCount
deriving DecidableEq

/-- The whole initialization path of `main` from mesh creation (line 163)
to solver setup (line 257), viewed as a fallible computation.  The C
source contains no node-count validation and no other configuration
check on this path — every execution reaches operator assembly — so the
embedding returns `.ok` for every input. -/
def mainSetup (nx ny nz : ℕ) : Except ConfigError Ctx :=
  .ok (setupCtx nx ny nz)

/-- The context of the default run (`nx = ny = nz = 25`). -/
def defaultCtx : Ctx := setupCtx 25 25 25

/-! ## SourceModel: `source_term` (lines 345–397) -/

/-- The Ricker wavelet value of lines 357–373 as a function of the
elapsed time `t`: `factor * (1 - 2*a*(t-t0)^2) * exp(-(a*(t-t0)^2))`
with `t0 = 1.2/f0` (line 357) and `a = PI*PI*f0*f0` (line 363). -/
def waveletAt (expf : ℚ → ℚ) (f0 factor t : ℚ) : ℚ :=
  factor * (1 - 2 * (PI * PI * f0 * f0) * (t - 1.2 / f0) ^ 2)
    * expf (-((PI * PI * f0 * f0) * (t - 1.2 / f0) ^ 2))

/-- The wavelet value computed at step `it`, with the elapsed time
`t = (it - 1) * dt` of line 364. -/
def ricker_wavelet (expf : ℚ → ℚ) (f0 factor dt : ℚ) (it : ℤ) : ℚ :=
  waveletAt expf f0 factor (((it : ℚ) - 1) * dt)

/-- The three force components stored into `c->src.fx/fy/fz`
(lines 392–394). -/
structure Forces where
  fx : ℚ
  fy : ℚ
  fz : ℚ
deriving DecidableEq

/-- The body of `source_term` (lines 345–397): reads `f0`, `it`, `dt`,
`factor`, `angle_force` from the context, computes the Ricker wavelet
value and decomposes it into force components (lines 375–377). -/
def source_term (sinf cosf expf : ℚ → ℚ)
    (f0 factor angle_force dt : ℚ) (it : ℤ) : Forces :=
  let t0 := 1.2 / f0
  let a := PI * PI * f0 * f0
  let t := ((it : ℚ) - 1) * dt
  let st := factor * (1 - 2 * a * (t - t0) ^ 2) * expf (-(a * (t - t0) ^ 2))
  { fx := sinf (angle_force * DEGREES_TO_RADIANS) * st
  , fy := cosf (angle_force * DEGREES_TO_RADIANS) * st
  , fz := sinf (angle_force * DEGREES_TO_RADIANS) * st }

/-! ## RHSBuilder: `update_b_ux` (lines 401–484) -/

/-- The value written to `_b[k][j][i]` by the fill loop of `update_b_ux`
(lines 439–474).  `uxm1 uxm2 uxm3` are the history vectors
`c->wf.uxm1/2/3` and `fx` is `c->src.fx` as set by the `source_term(c)`
call at line 409.  Boundary nodes get `0` (line 452); for an interior
node the code sets `f = hx*hy*hz` (line 458), computes `source_term =
dt2/rho * fx` at the source node and `0` elsewhere (lines 459–466), and
then executes `f *= 5*uxm1 - 4*uxm2 + 1*uxm3 + source_term` (line 468),
so the whole parenthesised sum — the source term included — is
multiplied by the scaling `hx*hy*hz`. -/
def update_b_ux (c : Ctx) (uxm1 uxm2 uxm3 : Node → ℚ) (fx : ℚ) (p : Node) : ℚ :=
  if isBoundaryB c p then 0
  else
    (hx c * hy c * hz c) *
      (5 * uxm1 p - 4 * uxm2 p + 1 * uxm3 p +
        (if p.i = c.isrc ∧ p.j = c.jsrc ∧ p.k = c.ksrc
         then c.dt ^ 2 / c.rho p * fx else 0))

/-- Follows the words of the claim/spec (§4.4) for comparison with
`update_b_ux`: `b = dx*dy*dz * (5*u[n-1] - 4*u[n-2] + 1*u[n-3])` plus,
at the source node only, `dt^2/density * fx` added OUTSIDE the scaling
factor, where `dx = xmax/nx` etc. are the GridModel spacings. -/
def update_b_claim (c : Ctx) (uxm1 uxm2 uxm3 : Node → ℚ) (fx : ℚ) (p : Node) : ℚ :=
  if isBoundaryB c p then 0
  else
    c.dx * c.dy * c.dz * (5 * uxm1 p - 4 * uxm2 p + 1 * uxm3 p) +
      (if p.i = c.isrc ∧ p.j = c.jsrc ∧ p.k = c.ksrc
       then c.dt ^ 2 / c.rho p * fx else 0)

/-! ## OperatorBuilder: `compute_A_ux` (lines 495–647) -/

/-- The row buffer `(idxn[0..n-1], v[0..n-1])` that `compute_A_ux`
inserts for node `p` via `MatSetValuesStencil` (lines 539–637), as a
list of `(column, value)` pairs in the order the code fills it.
Boundary nodes (lines 549–554) get the single entry `(p, 1)`.  Interior
nodes get the diagonal `v[0]` of line 558 — with the deferred update
`v[0] += 2*hx*hy*hz` of line 631 merged in — followed by one entry per
face neighbor whose guard holds: `(i-1) > 0` (line 562),
`(i+1) < mx-1` (line 573), `(j-1) > 0` (line 584), `(j+1) < my-1`
(line 595), `(k-1) > 0` (line 607), `(k+1) < mz-1` (line 619), each with
value `-c11*dt2/rho * (matching ratio)`. -/
def computeRowEntries (c : Ctx) (p : Node) : List (Node × ℚ) :=
  if isBoundaryB c p then [(p, 1)]
  else
    (p, c.c11 p * (c.dt * c.dt) / c.rho p * 2 * (hyhzdhx c + hxhzdhy c + hxhydhz c)
          + 2 * hx c * hy c * hz c) ::
    ((if 0 < p.i - 1 then
        [((⟨p.i - 1, p.j, p.k⟩ : Node), -(c.c11 p * (c.dt * c.dt) / c.rho p * hyhzdhx c))]
      else []) ++
     (if p.i + 1 < c.mx - 1 then
        [((⟨p.i + 1, p.j, p.k⟩ : Node), -(c.c11 p * (c.dt * c.dt) / c.rho p * hyhzdhx c))]
      else []) ++
     (if 0 < p.j - 1 then
        [((⟨p.i, p.j - 1, p.k⟩ : Node), -(c.c11 p * (c.dt * c.dt) / c.rho p * hxhzdhy c))]
      else []) ++
     (if p.j + 1 < c.my - 1 then
        [((⟨p.i, p.j + 1, p.k⟩ : Node), -(c.c11 p * (c.dt * c.dt) / c.rho p * hxhzdhy c))]
      else []) ++
     (if 0 < p.k - 1 then
        [((⟨p.i, p.j, p.k - 1⟩ : Node), -(c.c11 p * (c.dt * c.dt) / c.rho p * hxhydhz c))]
      else []) ++
     (if p.k + 1 < c.mz - 1 then
        [((⟨p.i, p.j, p.k + 1⟩ : Node), -(c.c11 p * (c.dt * c.dt) / c.rho p * hxhydhz c))]
      else []))

/-- Contribution of one buffer entry `e` to matrix column `q`. -/
def entryVal (q : Node) (e : Node × ℚ) : ℚ := if e.1 = q then e.2 else 0

/-- The assembled matrix entry `A[p, q]`: row `p` is inserted once with
`INSERT_VALUES`, so the entry is the sum of the buffer values whose
column index is `q` (zero when no buffer entry names column `q`). -/
def A_entry (c : Ctx) (p q : Node) : ℚ :=
  ((computeRowEntries c p).map (entryVal q)).sum

/-- Whether row `p` of the assembled operator has a stored entry in
column `q`. -/
def rowHasCol (c : Ctx) (p q : Node) : Bool :=
  (computeRowEntries c p).any (fun e => decide (e.1 = q))

/-- Follows the words of claim C2 for comparison with `A_entry`: the
interior diagonal written with the GridModel spacings `dx = xmax/nx`
etc. instead of the unit-interval spacings `hx = 1/(mx-1)` the code
uses. -/
def claim_A_diag (c : Ctx) (p : Node) : ℚ :=
  c.c11 p * (c.dt * c.dt) / c.rho p * 2 * (c.dy * c.dz / c.dx + c.dx * c.dz / c.dy + c.dx * c.dy / c.dz)
    + 2 * c.dx * c.dy * c.dz

/-! ## TimeMarcher: history rotation (lines 265–275) -/

/-- The wavefield history vectors `uxm1`, `uxm2`, `uxm3` of the C
`wfield` struct, over an abstract vector type `V`. -/
structure WfHist (V : Type) where
  uxm1 : V
  uxm2 : V
  uxm3 : V
deriving DecidableEq

/-- The three `VecCopy` calls executed after each solve, in program
order: `uxm2 → uxm3` (line 272), then `uxm1 → uxm2` (line 273), then the
fresh solution `ux → uxm1` (line 274).  Each copy reads the value left
by the previous one, so `uxm2` is saved into `uxm3` before being
overwritten. -/
def historyShift {V : Type} (s : WfHist V) (ux : V) : WfHist V :=
  let s1 : WfHist V := { s with uxm3 := s.uxm2 }
  let s2 : WfHist V := { s1 with uxm2 := s1.uxm1 }
  { s2 with uxm1 := ux }

/-- The history state after the first `n` iterations of the time loop
(lines 265–275), where `sol m` is the solution the (deterministic) solve
produces at step `m` and `init` is the state before the loop. -/
def historyAfter {V : Type} (sol : ℕ → V) (init : WfHist V) : ℕ → WfHist V
  | 0 => init
  | n + 1 => historyShift (historyAfter sol init n) (sol (n + 1))

/-! ## Shared helper lemmas -/

lemma isBoundaryB_eq_false_iff (c : Ctx) (p : Node) :
    isBoundaryB c p = false ↔
      p.i ≠ 0 ∧ p.i ≠ c.mx - 1 ∧ p.j ≠ 0 ∧ p.j ≠ c.my - 1 ∧ p.k ≠ 0 ∧ p.k ≠ c.mz - 1 := by
  simp [isBoundaryB, and_assoc]

lemma sum_map_ite_singleton (cond : Prop) [Decidable cond] (e : Node × ℚ) (q : Node) :
    ((if cond then [e] else []).map (entryVal q)).sum = if cond ∧ e.1 = q then e.2 else 0 := by
  by_cases h : cond <;> by_cases h2 : e.1 = q <;> simp [entryVal, h, h2]

lemma any_ite_singleton (cond : Prop) [Decidable cond] (e : Node × ℚ) (q : Node) :
    ((if cond then [e] else []).any (fun x => decide (x.1 = q))) =
      decide (cond ∧ e.1 = q) := by
  by_cases h : cond <;> by_cases h2 : e.1 = q <;> simp [h, h2]

/-- Pointwise characterisation of an interior row of the assembled
operator: the entry in column `q` is the diagonal value when `q = p`
plus one conditional term per neighbor guard. -/
lemma A_entry_interior (c : Ctx) (p q : Node) (hb : isBoundaryB c p = false) :
    A_entry c p q =
      (if p = q then
        c.c11 p * (c.dt * c.dt) / c.rho p * 2 * (hyhzdhx c + hxhzdhy c + hxhydhz c)
          + 2 * hx c * hy c * hz c else 0)
      + (if 0 < p.i - 1 ∧ (⟨p.i - 1, p.j, p.k⟩ : Node) = q then
          -(c.c11 p * (c.dt * c.dt) / c.rho p * hyhzdhx c) else 0)
      + (if p.i + 1 < c.mx - 1 ∧ (⟨p.i + 1, p.j, p.k⟩ : Node) = q then
          -(c.c11 p * (c.dt * c.dt) / c.rho p * hyhzdhx c) else 0)
      + (if 0 < p.j - 1 ∧ (⟨p.i, p.j - 1, p.k⟩ : Node) = q then
          -(c.c11 p * (c.dt * c.dt) / c.rho p * hxhzdhy c) else 0)
      + (if p.j + 1 < c.my - 1 ∧ (⟨p.i, p.j + 1, p.k⟩ : Node) = q then
          -(c.c11 p * (c.dt * c.dt) / c.rho p * hxhzdhy c) else 0)
      + (if 0 < p.k - 1 ∧ (⟨p.i, p.j, p.k - 1⟩ : Node) = q then
          -(c.c11 p * (c.dt * c.dt) / c.rho p * hxhydhz c) else 0)
      + (if p.k + 1 < c.mz - 1 ∧ (⟨p.i, p.j, p.k + 1⟩ : Node) = q then
          -(c.c11 p * (c.dt * c.dt) / c.rho p * hxhydhz c) else 0) := by
  simp only [A_entry, computeRowEntries, hb, Bool.false_eq_true, if_false,
    List.map_cons, List.map_append, List.sum_cons, List.sum_append,
    sum_map_ite_singleton, entryVal, add_assoc]

/-- Membership characterisation of an interior row: column `q` is stored
iff `q` is the diagonal or a neighbor whose guard holds. -/
lemma rowHasCol_interior_iff (c : Ctx) (p q : Node) (hb : isBoundaryB c p = false) :
    rowHasCol c p q = true ↔
      p = q ∨
      (0 < p.i - 1 ∧ (⟨p.i - 1, p.j, p.k⟩ : Node) = q) ∨
      (p.i + 1 < c.mx - 1 ∧ (⟨p.i + 1, p.j, p.k⟩ : Node) = q) ∨
      (0 < p.j - 1 ∧ (⟨p.i, p.j - 1, p.k⟩ : Node) = q) ∨
      (p.j + 1 < c.my - 1 ∧ (⟨p.i, p.j + 1, p.k⟩ : Node) = q) ∨
      (0 < p.k - 1 ∧ (⟨p.i, p.j, p.k - 1⟩ : Node) = q) ∨
      (p.k + 1 < c.mz - 1 ∧ (⟨p.i, p.j, p.k + 1⟩ : Node) = q) := by
  simp only [rowHasCol, computeRowEntries, hb, Bool.false_eq_true, if_false,
    List.any_cons, List.any_append, any_ite_singleton, Bool.or_eq_true,
    decide_eq_true_eq, or_assoc]

/-- Diagonal value of an interior row. -/
lemma A_entry_diag (c : Ctx) (p : Node) (hb : isBoundaryB c p = false) :
    A_entry c p p =
      c.c11 p * (c.dt * c.dt) / c.rho p * 2 * (hyhzdhx c + hxhzdhy c + hxhydhz c)
        + 2 * hx c * hy c * hz c := by
  obtain ⟨pi, pj, pk⟩ := p
  rw [A_entry_interior c _ _ hb]
  dsimp only
  rw [if_pos rfl,
    if_neg (by rw [Node.mk.injEq]; omega),
    if_neg (by rw [Node.mk.injEq]; omega),
    if_neg (by rw [Node.mk.injEq]; omega),
    if_neg (by rw [Node.mk.injEq]; omega),
    if_neg (by rw [Node.mk.injEq]; omega),
    if_neg (by rw [Node.mk.injEq]; omega)]
  ring

/-- Value of the `x`-minus (left) neighbor entry when its guard holds. -/
lemma A_entry_xm (c : Ctx) (p : Node) (hb : isBoundaryB c p = false)
    (hg : 0 < p.i - 1) :
    A_entry c p ⟨p.i - 1, p.j, p.k⟩ =
      -(c.c11 p * (c.dt * c.dt) / c.rho p * hyhzdhx c) := by
  obtain ⟨pi, pj, pk⟩ := p
  dsimp only at hg
  rw [A_entry_interior c _ _ hb]
  dsimp only
  rw [if_neg (by rw [Node.mk.injEq]; omega),
    if_pos ⟨hg, rfl⟩,
    if_neg (by rw [Node.mk.injEq]; omega),
    if_neg (by rw [Node.mk.injEq]; omega),
    if_neg (by rw [Node.mk.injEq]; omega),
    if_neg (by rw [Node.mk.injEq]; omega),
    if_neg (by rw [Node.mk.injEq]; omega)]
  ring

/-- Value of the `x`-plus (right) neighbor entry when its guard holds. -/
lemma A_entry_xp (c : Ctx) (p : Node) (hb : isBoundaryB c p = false)
    (hg : p.i + 1 < c.mx - 1) :
    A_entry c p ⟨p.i + 1, p.j, p.k⟩ =
      -(c.c11 p * (c.dt * c.dt) / c.rho p * hyhzdhx c) := by
  obtain ⟨pi, pj, pk⟩ := p
  dsimp only at hg
  rw [A_entry_interior c _ _ hb]
  dsimp only
  rw [if_neg (by rw [Node.mk.injEq]; omega),
    if_neg (by rw [Node.mk.injEq]; omega),
    if_pos ⟨hg, rfl⟩,
    if_neg (by rw [Node.mk.injEq]; omega),
    if_neg (by rw [Node.mk.injEq]; omega),
    if_neg (by rw [Node.mk.injEq]; omega),
    if_neg (by rw [Node.mk.injEq]; omega)]
  ring

/-- Value of the `y`-minus neighbor entry when its guard holds.  The
boundary hypothesis supplies `p.i ≠ 0`, ruling out a collision with the
`x`-minus column on a degenerate index. -/
lemma A_entry_ym (c : Ctx) (p : Node) (hb : isBoundaryB c p = false)
    (hg : 0 < p.j - 1) :
    A_entry c p ⟨p.i, p.j - 1, p.k⟩ =
      -(c.c11 p * (c.dt * c.dt) / c.rho p * hxhzdhy c) := by
  have hbf := (isBoundaryB_eq_false_iff c p).1 hb
  obtain ⟨pi, pj, pk⟩ := p
  obtain ⟨hi0, -, hj0, -, hk0, -⟩ := hbf
  dsimp only at hi0 hj0 hk0 hg
  rw [A_entry_interior c _ _ hb]
  dsimp only
  rw [if_neg (by rw [Node.mk.injEq]; omega),
    if_neg (by rw [Node.mk.injEq]; omega),
    if_neg (by rw [Node.mk.injEq]; omega),
    if_pos ⟨hg, rfl⟩,
    if_neg (by rw [Node.mk.injEq]; omega),
    if_neg (by rw [Node.mk.injEq]; omega),
    if_neg (by rw [Node.mk.injEq]; omega)]
  ring

/-- Value of the `y`-plus neighbor entry when its guard holds. -/
lemma A_entry_yp (c : Ctx) (p : Node) (hb : isBoundaryB c p = false)
    (hg : p.j + 1 < c.my - 1) :
    A_entry c p ⟨p.i, p.j + 1, p.k⟩ =
      -(c.c11 p * (c.dt * c.dt) / c.rho p * hxhzdhy c) := by
  obtain ⟨pi, pj, pk⟩ := p
  dsimp only at hg
  rw [A_entry_interior c _ _ hb]
  dsimp only
  rw [if_neg (by rw [Node.mk.injEq]; omega),
    if_neg (by rw [Node.mk.injEq]; omega),
    if_neg (by rw [Node.mk.injEq]; omega),
    if_neg (by rw [Node.mk.injEq]; omega),
    if_pos ⟨hg, rfl⟩,
    if_neg (by rw [Node.mk.injEq]; omega),
    if_neg (by rw [Node.mk.injEq]; omega)]
  ring

/-- Value of the `z`-minus neighbor entry when its guard holds. -/
lemma A_entry_zm (c : Ctx) (p : Node) (hb : isBoundaryB c p = false)
    (hg : 0 < p.k - 1) :
    A_entry c p ⟨p.i, p.j, p.k - 1⟩ =
      -(c.c11 p * (c.dt * c.dt) / c.rho p * hxhydhz c) := by
  have hbf := (isBoundaryB_eq_false_iff c p).1 hb
  obtain ⟨pi, pj, pk⟩ := p
  obtain ⟨hi0, -, hj0, -, hk0, -⟩ := hbf
  dsimp only at hi0 hj0 hk0 hg
  rw [A_entry_interior c _ _ hb]
  dsimp only
  rw [if_neg (by rw [Node.mk.injEq]; omega),
    if_neg (by rw [Node.mk.injEq]; omega),
    if_neg (by rw [Node.mk.injEq]; omega),
    if_neg (by rw [Node.mk.injEq]; omega),
    if_neg (by rw [Node.mk.injEq]; omega),
    if_pos ⟨hg, rfl⟩,
    if_neg (by rw [Node.mk.injEq]; omega)]
  ring

/-- Value of the `z`-plus neighbor entry when its guard holds. -/
lemma A_entry_zp (c : Ctx) (p : Node) (hb : isBoundaryB c p = false)
    (hg : p.k + 1 < c.mz - 1) :
    A_entry c p ⟨p.i, p.j, p.k + 1⟩ =
      -(c.c11 p * (c.dt * c.dt) / c.rho p * hxhydhz c) := by
  obtain ⟨pi, pj, pk⟩ := p
  dsimp only at hg
  rw [A_entry_interior c _ _ hb]
  dsimp only
  rw [if_neg (by rw [Node.mk.injEq]; omega),
    if_neg (by rw [Node.mk.injEq]; omega),
    if_neg (by rw [Node.mk.injEq]; omega),
    if_neg (by rw [Node.mk.injEq]; omega),
    if_neg (by rw [Node.mk.injEq]; omega),
    if_neg (by rw [Node.mk.injEq]; omega),
    if_pos ⟨hg, rfl⟩]
  ring

lemma historyAfter_succ {V : Type} (sol : ℕ → V) (init : WfHist V) (n : ℕ) :
    historyAfter sol init (n + 1) = historyShift (historyAfter sol init n) (sol (n + 1)) := rfl

lemma historyShift_uxm1 {V : Type} (s : WfHist V) (u : V) : (historyShift s u).uxm1 = u := rfl

lemma historyShift_uxm2 {V : Type} (s : WfHist V) (u : V) : (historyShift s u).uxm2 = s.uxm1 := rfl

lemma historyShift_uxm3 {V : Type} (s : WfHist V) (u : V) : (historyShift s u).uxm3 = s.uxm2 := rfl

lemma length_ite_singleton {α : Type} (cond : Prop) [Decidable cond] (e : α) :
    (if cond then [e] else []).length ≤ 1 := by
  split <;> simp

/-- Whether `q` is one of the six face neighbors of the stencil node `p`. -/
abbrev faceNeighborOf (p q : Node) : Prop :=
  q = ⟨p.i + 1, p.j, p.k⟩ ∨ q = ⟨p.i - 1, p.j, p.k⟩ ∨
  q = ⟨p.i, p.j + 1, p.k⟩ ∨ q = ⟨p.i, p.j - 1, p.k⟩ ∨
  q = ⟨p.i, p.j, p.k + 1⟩ ∨ q = ⟨p.i, p.j, p.k - 1⟩

/-- A node all of whose six neighbor guards hold, i.e. a node "far from
any boundary": every one of its neighbor indices is strictly inside the
domain. -/
abbrev farFromBoundary (c : Ctx) (p : Node) : Prop :=
  0 < p.i - 1 ∧ p.i + 1 < c.mx - 1 ∧ 0 < p.j - 1 ∧ p.j + 1 < c.my - 1 ∧
  0 < p.k - 1 ∧ p.k + 1 < c.mz - 1

lemma farFromBoundary_not_boundary (c : Ctx) (p : Node) (h : farFromBoundary c p) :
    isBoundaryB c p = false := by
  rw [isBoundaryB_eq_false_iff]
  obtain ⟨h1, h2, h3, h4, h5, h6⟩ := h
  exact ⟨by omega, by omega, by omega, by omega, by omega, by omega⟩

/-! ## Claim theorems -/

/-- C4: for every boundary node (any index equal to `0` or `m - 1` on
its axis), the assembled operator row contains exactly one nonzero
entry, equal to `1`, located at the diagonal: the inserted row buffer is
exactly `[(p, 1)]`, so `A[p,p] = 1` and `A[p,q] = 0` for every other
column `q`. -/
theorem c4_boundary_identity_row (c : Ctx) (p q : Node)
    (hb : isBoundaryB c p = true) (hq : q ≠ p) :
    computeRowEntries c p = [(p, 1)] ∧ A_entry c p p = 1 ∧ A_entry c p q = 0 := by
  refine ⟨?_, ?_, ?_⟩ <;>
    simp [computeRowEntries, A_entry, entryVal, hb, Ne.symm hq]

/-- Witness for C4 at a concrete boundary node of the default grid. -/
theorem c4_witness :
    computeRowEntries defaultCtx ⟨0, 5, 5⟩ = [(⟨0, 5, 5⟩, 1)] ∧
      A_entry defaultCtx ⟨0, 5, 5⟩ ⟨0, 5, 5⟩ = 1 ∧
      A_entry defaultCtx ⟨0, 5, 5⟩ ⟨1, 5, 5⟩ = 0 :=
  c4_boundary_identity_row defaultCtx ⟨0, 5, 5⟩ ⟨1, 5, 5⟩ (by decide) (by decide)

/-- C5: the source wavelet computed at each step is the time function
`waveletAt` evaluated at `t = (it - 1) * dt`; given that the (abstract)
exponential satisfies `exp 0 = 1`, its value at `t = t0 = 1.2/f0` is
exactly the amplitude `factor`, and it is symmetric about `t0`: for
every offset `s` its value at `t0 + s` equals its value at `t0 - s`. -/
theorem c5_wavelet_peak_and_symmetry (expf : ℚ → ℚ) (f0 factor dt s : ℚ) (it : ℤ)
    (hexp : expf 0 = 1) :
    ricker_wavelet expf f0 factor dt it = waveletAt expf f0 factor (((it : ℚ) - 1) * dt) ∧
    waveletAt expf f0 factor (1.2 / f0) = factor ∧
    waveletAt expf f0 factor (1.2 / f0 + s) = waveletAt expf f0 factor (1.2 / f0 - s) := by
  refine ⟨rfl, ?_, ?_⟩
  · unfold waveletAt
    rw [sub_self]
    simp [hexp]
  · unfold waveletAt
    rw [add_sub_cancel_left, sub_sub_cancel_left, neg_sq]

/-- Witness for C5 at a concrete instantiation (`exp` taken as the
constant-one function, which satisfies the hypothesis `exp 0 = 1`). -/
theorem c5_witness :
    waveletAt (fun _ => (1 : ℚ)) 1 7 (1.2 / 1) = 7 ∧
      waveletAt (fun _ => (1 : ℚ)) 1 7 (1.2 / 1 + 2) =
        waveletAt (fun _ => (1 : ℚ)) 1 7 (1.2 / 1 - 2) :=
  ⟨(c5_wavelet_peak_and_symmetry (fun _ => 1) 1 7 1 2 3 rfl).2.1,
   (c5_wavelet_peak_and_symmetry (fun _ => 1) 1 7 1 2 3 rfl).2.2⟩

/-- C6: the force components produced by `source_term` are
`fx = sin(θ)·w`, `fy = cos(θ)·w`, `fz = sin(θ)·w`, with `θ` the force
angle converted from degrees to radians and `w` the step's Ricker
wavelet value; in particular `fx = fz` at every step. -/
theorem c6_force_decomposition (sinf cosf expf : ℚ → ℚ)
    (f0 factor angle_force dt : ℚ) (it : ℤ) :
    (source_term sinf cosf expf f0 factor angle_force dt it).fx =
        sinf (angle_force * DEGREES_TO_RADIANS) * ricker_wavelet expf f0 factor dt it ∧
      (source_term sinf cosf expf f0 factor angle_force dt it).fy =
        cosf (angle_force * DEGREES_TO_RADIANS) * ricker_wavelet expf f0 factor dt it ∧
      (source_term sinf cosf expf f0 factor angle_force dt it).fz =
        sinf (angle_force * DEGREES_TO_RADIANS) * ricker_wavelet expf f0 factor dt it ∧
      (source_term sinf cosf expf f0 factor angle_force dt it).fx =
        (source_term sinf cosf expf f0 factor angle_force dt it).fz :=
  ⟨rfl, rfl, rfl, rfl⟩

/-- C7: the wavefield history shifts exactly one slot per iteration
(`uxm2 → uxm3` before it is overwritten, then `uxm1 → uxm2`, then the
fresh solution into `uxm1`), so during step `k > 3` — i.e. after the
first `k - 1` iterations — `uxm1` holds the solution of step `k-1`,
`uxm2` that of step `k-2`, and `uxm3` that of step `k-3`. -/
theorem c7_history_rotation {V : Type} (sol : ℕ → V) (init : WfHist V) (k : ℕ)
    (hk : 3 < k) :
    (historyAfter sol init (k - 1)).uxm1 = sol (k - 1) ∧
      (historyAfter sol init (k - 1)).uxm2 = sol (k - 2) ∧
      (historyAfter sol init (k - 1)).uxm3 = sol (k - 3) := by
  obtain ⟨j, rfl⟩ : ∃ j, k = j + 4 := ⟨k - 4, by omega⟩
  have e1 : j + 4 - 1 = j + 2 + 1 := by omega
  have e2 : j + 4 - 2 = j + 1 + 1 := by omega
  have e3 : j + 4 - 3 = j + 0 + 1 := by omega
  have e4 : j + 2 = j + 1 + 1 := by omega
  have e5 : j + 1 = j + 0 + 1 := by omega
  rw [e1, e2, e3]
  refine ⟨?_, ?_, ?_⟩
  · rw [historyAfter_succ, historyShift_uxm1]
  · rw [historyAfter_succ, historyShift_uxm2, e4, historyAfter_succ, historyShift_uxm1]
  · rw [historyAfter_succ, historyShift_uxm3, e4, historyAfter_succ, historyShift_uxm2,
      e5, historyAfter_succ, historyShift_uxm1]

/-- Witness for C7 at `k = 5` with a concrete solution sequence. -/
theorem c7_witness :
    (historyAfter (fun n : ℕ => (n : ℚ)) ⟨100, 200, 300⟩ (5 - 1)).uxm1 = ((5 - 1 : ℕ) : ℚ) ∧
      (historyAfter (fun n : ℕ => (n : ℚ)) ⟨100, 200, 300⟩ (5 - 1)).uxm2 = ((5 - 2 : ℕ) : ℚ) ∧
      (historyAfter (fun n : ℕ => (n : ℚ)) ⟨100, 200, 300⟩ (5 - 1)).uxm3 = ((5 - 3 : ℕ) : ℚ) :=
  c7_history_rotation (fun n : ℕ => (n : ℚ)) ⟨100, 200, 300⟩ 5 (by omega)

/-- C10: for every grid node the row buffer filled by `compute_A_ux`
holds between 1 and 7 stencil entries (1 for a boundary node, a diagonal
plus at most six neighbor couplings for an interior node), so every
write through the running counter `n` stays inside the fixed 7-element
arrays `v[7]` / `idxn[7]`. -/
theorem c10_stencil_entry_count (c : Ctx) (p : Node) :
    1 ≤ (computeRowEntries c p).length ∧ (computeRowEntries c p).length ≤ 7 := by
  unfold computeRowEntries
  split_ifs <;> simp

/-- C1 as stated is false on the code: at the source node the value the
claim prescribes (`dx*dy*dz`-scaled history plus the source term added
OUTSIDE the scaling) differs from what `update_b_ux` computes, already
on the default grid with zero history (the code multiplies the source
term by `hx*hy*hz = (1/24)^3`, and its scaling factor is not
`dx*dy*dz = 40^3`). -/
theorem c1_counterexample :
    update_b_ux defaultCtx (fun _ => 0) (fun _ => 0) (fun _ => 0) 2025000 ⟨12, 12, 12⟩ ≠
      update_b_claim defaultCtx (fun _ => 0) (fun _ => 0) (fun _ => 0) 2025000 ⟨12, 12, 12⟩ := by
  norm_num [update_b_ux, update_b_claim, defaultCtx, setupCtx, isBoundaryB, hx, hy, hz]

/-- C1 amended: boundary nodes get RHS `0`; an interior node gets
`hx*hy*hz * (5*u[n-1] - 4*u[n-2] + 1*u[n-3])` plus, exactly at the
source node, the additional term `hx*hy*hz * (dt^2/density * fx)` — the
scaling factor is `hx*hy*hz` with `hx = 1/(mx-1)` per axis (not the
GridModel spacings `xmax/nx`), and the source term is multiplied by that
scaling factor too, since line 468 folds it into the scaled sum. -/
theorem c1_rhs_values (c : Ctx) (uxm1 uxm2 uxm3 : Node → ℚ) (fx : ℚ) (p : Node) :
    (isBoundaryB c p = true → update_b_ux c uxm1 uxm2 uxm3 fx p = 0) ∧
      (isBoundaryB c p = false →
        update_b_ux c uxm1 uxm2 uxm3 fx p =
          hx c * hy c * hz c * (5 * uxm1 p - 4 * uxm2 p + 1 * uxm3 p) +
            (if p.i = c.isrc ∧ p.j = c.jsrc ∧ p.k = c.ksrc
             then hx c * hy c * hz c * (c.dt ^ 2 / c.rho p * fx) else 0)) := by
  constructor
  · intro hb
    simp [update_b_ux, hb]
  · intro hb
    simp only [update_b_ux, hb, Bool.false_eq_true, if_false]
    split <;> ring

/-- Witness for C1 (amended) at the source node of the default grid. -/
theorem c1_witness :
    isBoundaryB defaultCtx ⟨12, 12, 12⟩ = false ∧
      update_b_ux defaultCtx (fun _ => 1) (fun _ => 1) (fun _ => 1) 3 ⟨12, 12, 12⟩ =
        hx defaultCtx * hy defaultCtx * hz defaultCtx * (5 * 1 - 4 * 1 + 1 * 1) +
          (if (12 : ℕ) = defaultCtx.isrc ∧ (12 : ℕ) = defaultCtx.jsrc ∧ (12 : ℕ) = defaultCtx.ksrc
           then hx defaultCtx * hy defaultCtx * hz defaultCtx *
             (defaultCtx.dt ^ 2 / defaultCtx.rho ⟨12, 12, 12⟩ * 3) else 0) :=
  ⟨by decide,
   (c1_rhs_values defaultCtx (fun _ => 1) (fun _ => 1) (fun _ => 1) 3 ⟨12, 12, 12⟩).2 (by decide)⟩

/-- C2 as stated is false on the code: on the default grid the assembled
diagonal differs from the claimed formula built from the GridModel
spacings `dx = xmax/nx = 40` etc.; the code uses `hx = 1/(mx-1) = 1/24`
instead. -/
theorem c2_counterexample :
    A_entry defaultCtx ⟨12, 12, 12⟩ ⟨12, 12, 12⟩ ≠ claim_A_diag defaultCtx ⟨12, 12, 12⟩ := by
  norm_num [A_entry, computeRowEntries, claim_A_diag, defaultCtx, setupCtx, isBoundaryB,
    entryVal, hx, hy, hz, hyhzdhx, hxhzdhy, hxhydhz]

/-- C2 amended: for every interior node the assembled diagonal is
`coeff*dt^2/density * 2*(hy*hz/hx + hx*hz/hy + hx*hy/hz) + 2*hx*hy*hz`
and each present off-diagonal is `-coeff*dt^2/density` times the
matching face-area/spacing ratio, where the spacings are the
unit-interval values `hx = 1/(mx-1)`, `hy = 1/(my-1)`, `hz = 1/(mz-1)`
recomputed inside the assembly routine — not the GridModel spacings
`extent/node_count`. -/
theorem c2_interior_stencil_values (c : Ctx) (p : Node) (hb : isBoundaryB c p = false) :
    A_entry c p p =
        c.c11 p * (c.dt * c.dt) / c.rho p * 2 * (hyhzdhx c + hxhzdhy c + hxhydhz c)
          + 2 * hx c * hy c * hz c ∧
      (0 < p.i - 1 →
        A_entry c p ⟨p.i - 1, p.j, p.k⟩ = -(c.c11 p * (c.dt * c.dt) / c.rho p * hyhzdhx c)) ∧
      (p.i + 1 < c.mx - 1 →
        A_entry c p ⟨p.i + 1, p.j, p.k⟩ = -(c.c11 p * (c.dt * c.dt) / c.rho p * hyhzdhx c)) ∧
      (0 < p.j - 1 →
        A_entry c p ⟨p.i, p.j - 1, p.k⟩ = -(c.c11 p * (c.dt * c.dt) / c.rho p * hxhzdhy c)) ∧
      (p.j + 1 < c.my - 1 →
        A_entry c p ⟨p.i, p.j + 1, p.k⟩ = -(c.c11 p * (c.dt * c.dt) / c.rho p * hxhzdhy c)) ∧
      (0 < p.k - 1 →
        A_entry c p ⟨p.i, p.j, p.k - 1⟩ = -(c.c11 p * (c.dt * c.dt) / c.rho p * hxhydhz c)) ∧
      (p.k + 1 < c.mz - 1 →
        A_entry c p ⟨p.i, p.j, p.k + 1⟩ = -(c.c11 p * (c.dt * c.dt) / c.rho p * hxhydhz c)) :=
  ⟨A_entry_diag c p hb, fun h => A_entry_xm c p hb h, fun h => A_entry_xp c p hb h,
   fun h => A_entry_ym c p hb h, fun h => A_entry_yp c p hb h,
   fun h => A_entry_zm c p hb h, fun h => A_entry_zp c p hb h⟩

/-- Witness for C2 (amended): diagonal and one off-diagonal evaluated at
an interior node of the default grid. -/
theorem c2_witness :
    A_entry defaultCtx ⟨12, 12, 12⟩ ⟨12, 12, 12⟩ =
        defaultCtx.c11 ⟨12, 12, 12⟩ * (defaultCtx.dt * defaultCtx.dt) /
            defaultCtx.rho ⟨12, 12, 12⟩ * 2 * (hyhzdhx defaultCtx + hxhzdhy defaultCtx + hxhydhz defaultCtx)
          + 2 * hx defaultCtx * hy defaultCtx * hz defaultCtx ∧
      A_entry defaultCtx ⟨12, 12, 12⟩ ⟨11, 12, 12⟩ =
        -(defaultCtx.c11 ⟨12, 12, 12⟩ * (defaultCtx.dt * defaultCtx.dt) /
            defaultCtx.rho ⟨12, 12, 12⟩ * hyhzdhx defaultCtx) :=
  ⟨(c2_interior_stencil_values defaultCtx ⟨12, 12, 12⟩ (by decide)).1,
   (c2_interior_stencil_values defaultCtx ⟨12, 12, 12⟩ (by decide)).2.1 (by decide)⟩

/-- C3: for every interior node `p` of a valid grid, each of the six
face-neighbor columns is stored in the assembled row exactly when the
neighbor's varying index is strictly greater than `0` and strictly less
than `node_count - 1` on its axis (so a neighbor sitting on the boundary
contributes no coupling entry). -/
theorem c3_neighbor_coupling_iff (c : Ctx) (p : Node) (hb : isBoundaryB c p = false)
    (hv : p.i < c.mx ∧ p.j < c.my ∧ p.k < c.mz) :
    (rowHasCol c p ⟨p.i - 1, p.j, p.k⟩ = true ↔ 0 < p.i - 1 ∧ p.i - 1 < c.mx - 1) ∧
      (rowHasCol c p ⟨p.i + 1, p.j, p.k⟩ = true ↔ 0 < p.i + 1 ∧ p.i + 1 < c.mx - 1) ∧
      (rowHasCol c p ⟨p.i, p.j - 1, p.k⟩ = true ↔ 0 < p.j - 1 ∧ p.j - 1 < c.my - 1) ∧
      (rowHasCol c p ⟨p.i, p.j + 1, p.k⟩ = true ↔ 0 < p.j + 1 ∧ p.j + 1 < c.my - 1) ∧
      (rowHasCol c p ⟨p.i, p.j, p.k - 1⟩ = true ↔ 0 < p.k - 1 ∧ p.k - 1 < c.mz - 1) ∧
      (rowHasCol c p ⟨p.i, p.j, p.k + 1⟩ = true ↔ 0 < p.k + 1 ∧ p.k + 1 < c.mz - 1) := by
  have hbf := (isBoundaryB_eq_false_iff c p).1 hb
  obtain ⟨pi, pj, pk⟩ := p
  obtain ⟨hi0, hi1, hj0, hj1, hk0, hk1⟩ := hbf
  obtain ⟨hvi, hvj, hvk⟩ := hv
  dsimp only at hi0 hi1 hj0 hj1 hk0 hk1 hvi hvj hvk ⊢
  refine ⟨?_, ?_, ?_, ?_, ?_, ?_⟩ <;>
    (rw [rowHasCol_interior_iff c _ _ hb]; dsimp only;
     simp only [Node.mk.injEq, eq_self_iff_true, and_true, true_and, and_false, false_and,
       or_false, false_or];
     omega)

/-- Witness for C3 at the interior node `(1,12,12)` of the default grid,
whose x-minus neighbor `(0,12,12)` lies on the boundary and is indeed
not stored. -/
theorem c3_witness :
    (rowHasCol defaultCtx ⟨1, 12, 12⟩ ⟨0, 12, 12⟩ = true ↔ 0 < (0 : ℕ) ∧ (0 : ℕ) < 24) ∧
      (rowHasCol defaultCtx ⟨1, 12, 12⟩ ⟨2, 12, 12⟩ = true ↔ 0 < (2 : ℕ) ∧ (2 : ℕ) < 24) ∧
      (rowHasCol defaultCtx ⟨1, 12, 12⟩ ⟨1, 11, 12⟩ = true ↔ 0 < (11 : ℕ) ∧ (11 : ℕ) < 24) ∧
      (rowHasCol defaultCtx ⟨1, 12, 12⟩ ⟨1, 13, 12⟩ = true ↔ 0 < (13 : ℕ) ∧ (13 : ℕ) < 24) ∧
      (rowHasCol defaultCtx ⟨1, 12, 12⟩ ⟨1, 12, 11⟩ = true ↔ 0 < (11 : ℕ) ∧ (11 : ℕ) < 24) ∧
      (rowHasCol defaultCtx ⟨1, 12, 12⟩ ⟨1, 12, 13⟩ = true ↔ 0 < (13 : ℕ) ∧ (13 : ℕ) < 24) :=
  c3_neighbor_coupling_iff defaultCtx ⟨1, 12, 12⟩ (by decide) (by decide)

/-- C8 as stated is false on the code: with node count `2` on the x axis
(below 3), initialization still succeeds — `main` contains no node-count
validation — and operator assembly proceeds, producing rows (here the
boundary-classified identity row of node `(1,12,12)`). -/
theorem c8_counterexample :
    mainSetup 2 25 25 = .ok (setupCtx 2 25 25) ∧
      computeRowEntries (setupCtx 2 25 25) ⟨1, 12, 12⟩ = [(⟨1, 12, 12⟩, 1)] :=
  ⟨rfl, by decide⟩

/-- C8 amended: the code performs no node-count validation at all —
initialization succeeds for every node count and assembly is attempted;
on an axis with fewer than 3 nodes every valid node is classified as a
boundary node, so its row is the identity row and no invalid stencil
index is referenced. -/
theorem c8_no_validation (nx ny nz : ℕ) (p : Node) (hn : nx < 3) (hp : p.i < nx) :
    mainSetup nx ny nz = .ok (setupCtx nx ny nz) ∧
      computeRowEntries (setupCtx nx ny nz) p = [(p, 1)] := by
  refine ⟨rfl, ?_⟩
  have hb : isBoundaryB (setupCtx nx ny nz) p = true := by
    obtain ⟨pi, pj, pk⟩ := p
    dsimp only at hp
    simp only [isBoundaryB, setupCtx, Bool.or_eq_true, beq_iff_eq]
    omega
  simp [computeRowEntries, hb]

/-- Witness for C8 (amended) at node count 2 on the x axis. -/
theorem c8_witness :
    mainSetup 2 25 25 = .ok (setupCtx 2 25 25) ∧
      computeRowEntries (setupCtx 2 25 25) ⟨1, 3, 3⟩ = [(⟨1, 3, 3⟩, 1)] :=
  c8_no_validation 2 25 25 ⟨1, 3, 3⟩ (by decide) (by decide)

/-- C9: for any pair of face-neighboring nodes that are both far from
every boundary (all neighbor guards hold), the assembled operator is
symmetric, `A[p,q] = A[q,p]`, provided the material fields `c11` and
`rho` are constant over the grid, as `main` sets them. -/
theorem c9_stencil_symmetry (c : Ctx) (p q : Node)
    (hp : farFromBoundary c p) (hq : farFromBoundary c q) (hn : faceNeighborOf p q)
    (hc11 : ∀ r t : Node, c.c11 r = c.c11 t) (hrho : ∀ r t : Node, c.rho r = c.rho t) :
    A_entry c p q = A_entry c q p := by
  have hbp : isBoundaryB c p = false := farFromBoundary_not_boundary c p hp
  have hbq : isBoundaryB c q = false := farFromBoundary_not_boundary c q hq
  obtain ⟨pi, pj, pk⟩ := p
  obtain ⟨hp1, hp2, hp3, hp4, hp5, hp6⟩ := hp
  dsimp only at hp1 hp2 hp3 hp4 hp5 hp6
  rcases hn with h | h | h | h | h | h <;> subst h <;> dsimp only at hbq ⊢
  · have h1 := A_entry_xp c ⟨pi, pj, pk⟩ hbp (by dsimp only; omega)
    have h2 := A_entry_xm c ⟨pi + 1, pj, pk⟩ hbq (by dsimp only; omega)
    dsimp only at h1 h2
    rw [(by omega : pi + 1 - 1 = pi)] at h2
    rw [h1, h2, hc11 ⟨pi, pj, pk⟩ ⟨pi + 1, pj, pk⟩, hrho ⟨pi, pj, pk⟩ ⟨pi + 1, pj, pk⟩]
  · have h1 := A_entry_xm c ⟨pi, pj, pk⟩ hbp (by dsimp only; omega)
    have h2 := A_entry_xp c ⟨pi - 1, pj, pk⟩ hbq (by dsimp only; omega)
    dsimp only at h1 h2
    rw [(by omega : pi - 1 + 1 = pi)] at h2
    rw [h1, h2, hc11 ⟨pi, pj, pk⟩ ⟨pi - 1, pj, pk⟩, hrho ⟨pi, pj, pk⟩ ⟨pi - 1, pj, pk⟩]
  · have h1 := A_entry_yp c ⟨pi, pj, pk⟩ hbp (by dsimp only; omega)
    have h2 := A_entry_ym c ⟨pi, pj + 1, pk⟩ hbq (by dsimp only; omega)
    dsimp only at h1 h2
    rw [(by omega : pj + 1 - 1 = pj)] at h2
    rw [h1, h2, hc11 ⟨pi, pj, pk⟩ ⟨pi, pj + 1, pk⟩, hrho ⟨pi, pj, pk⟩ ⟨pi, pj + 1, pk⟩]
  · have h1 := A_entry_ym c ⟨pi, pj, pk⟩ hbp (by dsimp only; omega)
    have h2 := A_entry_yp c ⟨pi, pj - 1, pk⟩ hbq (by dsimp only; omega)
    dsimp only at h1 h2
    rw [(by omega : pj - 1 + 1 = pj)] at h2
    rw [h1, h2, hc11 ⟨pi, pj, pk⟩ ⟨pi, pj - 1, pk⟩, hrho ⟨pi, pj, pk⟩ ⟨pi, pj - 1, pk⟩]
  · have h1 := A_entry_zp c ⟨pi, pj, pk⟩ hbp (by dsimp only; omega)
    have h2 := A_entry_zm c ⟨pi, pj, pk + 1⟩ hbq (by dsimp only; omega)
    dsimp only at h1 h2
    rw [(by omega : pk + 1 - 1 = pk)] at h2
    rw [h1, h2, hc11 ⟨pi, pj, pk⟩ ⟨pi, pj, pk + 1⟩, hrho ⟨pi, pj, pk⟩ ⟨pi, pj, pk + 1⟩]
  · have h1 := A_entry_zm c ⟨pi, pj, pk⟩ hbp (by dsimp only; omega)
    have h2 := A_entry_zp c ⟨pi, pj, pk - 1⟩ hbq (by dsimp only; omega)
    dsimp only at h1 h2
    rw [(by omega : pk - 1 + 1 = pk)] at h2
    rw [h1, h2, hc11 ⟨pi, pj, pk⟩ ⟨pi, pj, pk - 1⟩, hrho ⟨pi, pj, pk⟩ ⟨pi, pj, pk - 1⟩]

/-- Witness for C9 at a concrete face-neighbor pair of interior nodes of
the default grid (its material fields are the constants set by `main`). -/
theorem c9_witness :
    A_entry defaultCtx ⟨11, 12, 12⟩ ⟨12, 12, 12⟩ =
      A_entry defaultCtx ⟨12, 12, 12⟩ ⟨11, 12, 12⟩ :=
  c9_stencil_symmetry defaultCtx ⟨11, 12, 12⟩ ⟨12, 12, 12⟩ (by decide) (by decide)
    (by decide) (fun _ _ => rfl) (fun _ _ => rfl)
